import Mathlib

/-!
Shallow embedding of `src/python_scripts/display_config.py`, the Raspberry Pi
mass-deployment script.  External effects (SSH connect, SCP transfer, remote
command execution, log appends) are modelled as an explicit trace of events;
the outcomes of the external world (connection success, directory existence,
per-file transfer success, captured output/error streams, exception messages)
are supplied by an environment record `HostEnv`.  Machine-level details that
the script never observes (actual bytes on the wire, timing) are abstracted
away; the control flow of the Python functions is reproduced faithfully.
-/

/-- Configuration constant `LOCAL_DIR` from the script. -/
def LOCAL_DIR : String := "/home/phason/auto sort ilitek-rev2-scripts calibration/Files"

/-- Configuration constant `REMOTE_DIR` from the script. -/
def REMOTE_DIR : String := "/home/prod/"

/-- Configuration constant `TARGET_FILE_TO_RUN` from the script. -/
def TARGET_FILE_TO_RUN : String := "update-ilitek"

/-- Observable effects of one run of `send_files_and_execute` (and of `main`).
`connect` is the `create_ssh_client` network attempt, `put` an `scp.put`
transfer attempt, `chmod` / `execScript` the two `exec_command` calls,
`deleteCmd` the `rm -f` cleanup command for one filename, `closeSession`
the `ssh_client.close()` call, and `logInfo` / `logError` the two channels
of `log_message`. -/
inductive Event where
  | connect (ip : String)
  | put (ip : String) (filename : String)
  | chmod (ip : String)
  | execScript (ip : String)
  | deleteCmd (ip : String) (filename : String)
  | closeSession (ip : String)
  | logInfo (msg : String)
  | logError (msg : String)
deriving DecidableEq, Repr

/-- One entry of `os.listdir(LOCAL_DIR)`: its name, whether `os.path.isfile`
holds for it, and whether the `scp.put` call for it succeeds (when `putOk`
is false, `scp.put` raises and the exception propagates to the `except`
handler of `send_files_and_execute`). -/
structure DirEntry where
  name : String
  isFile : Bool
  putOk : Bool
deriving DecidableEq, Repr

/-- The external world as seen by one run of `send_files_and_execute ip`:
whether `create_ssh_client` succeeds, whether `os.path.isdir(LOCAL_DIR)`
holds, the directory listing with per-file transfer outcomes, whether the
two `exec_command` calls succeed, the (stripped) captured stdout and stderr
of the remote script, and the `str(e)` text of the exception if one is
raised. -/
structure HostEnv where
  connectOk : Bool
  localDirExists : Bool
  entries : List DirEntry
  chmodOk : Bool
  execOk : Bool
  output : String
  error : String
  excMsg : String
deriving DecidableEq, Repr

/-- Message logged at line 146 when the local directory is missing. -/
def localDirMissingMsg (ip : String) : String :=
  ip ++ ": ❌ Local directory '" ++ LOCAL_DIR ++ "' missing. Skipping."

/-- Message logged at line 159 after each successful transfer. -/
def copiedMsg (ip f : String) : String := ip ++ ": Copied " ++ f

/-- Message logged at line 170 when the error stream is non-empty. -/
def scriptErrorMsg (ip err : String) : String := ip ++ ": ⚠ Script error: " ++ err

/-- Message logged at line 173 when the error stream is empty. -/
def successMsg (ip : String) : String := ip ++ ": ✅ Script executed successfully."

/-- Message logged at line 180 after each cleanup command. -/
def deletedMsg (ip f : String) : String := ip ++ ": Deleted " ++ f ++ " after successful execution."

/-- Message logged at line 184 for non-empty captured stdout. -/
def outputMsg (ip out : String) : String := ip ++ ": OUTPUT → " ++ out

/-- Message logged at line 189 by the `except` handler. -/
def excMsgLine (ip e : String) : String := ip ++ ": ❌ " ++ e

/-- The transfer loop (lines 153-159): for each regular file, attempt
`scp.put`; on success append the filename to `transferred_files` and log
`Copied`; on failure the raised exception aborts the loop.  Returns the
events emitted, the `transferred_files` list, and whether an exception was
raised. -/
def transferLoop (ip : String) : List DirEntry → List Event × List String × Bool
  | [] => ([], [], false)
  | e :: rest =>
    if e.isFile then
      if e.putOk then
        let r := transferLoop ip rest
        (Event.put ip e.name :: Event.logInfo (copiedMsg ip e.name) :: r.1, e.name :: r.2.1, r.2.2)
      else ([Event.put ip e.name], [], true)
    else transferLoop ip rest

/-- Cleanup loop (lines 177-180): one `rm -f` command and one info-log line
per filename of `transferred_files`, in order. -/
def cleanupEvents (ip : String) : List String → List Event
  | [] => []
  | f :: rest => Event.deleteCmd ip f :: Event.logInfo (deletedMsg ip f) :: cleanupEvents ip rest

/-- The body of the `try` block of `send_files_and_execute` (lines 138-186).
Returns the events emitted and whether an exception was raised (to be
handled by the `except` clause).  Mirrors the source line by line:
connect (139), local-dir check (145-149, which closes the session and
returns), transfer loop (153-159), `chmod` (162), script execution and
stream reads (165-167), outcome branch (169-181), stdout logging (183-184),
and the final `ssh_client.close()` (186). -/
def tryBody (ip : String) (env : HostEnv) : List Event × Bool :=
  if !env.connectOk then ([Event.connect ip], true)
  else if !env.localDirExists then
    ([Event.connect ip, Event.logError (localDirMissingMsg ip), Event.closeSession ip], false)
  else if (transferLoop ip env.entries).2.2 then
    (Event.connect ip :: (transferLoop ip env.entries).1, true)
  else if !env.chmodOk then
    (Event.connect ip :: (transferLoop ip env.entries).1 ++ [Event.chmod ip], true)
  else if !env.execOk then
    (Event.connect ip :: (transferLoop ip env.entries).1 ++ [Event.chmod ip, Event.execScript ip], true)
  else
    (Event.connect ip :: (transferLoop ip env.entries).1 ++ [Event.chmod ip, Event.execScript ip]
      ++ (if env.error ≠ "" then [Event.logError (scriptErrorMsg ip env.error)]
          else Event.logInfo (successMsg ip) :: cleanupEvents ip (transferLoop ip env.entries).2.1)
      ++ (if env.output ≠ "" then [Event.logInfo (outputMsg ip env.output)] else [])
      ++ [Event.closeSession ip], false)

/-- `send_files_and_execute` (lines 135-190): run the `try` body; if it
raised, the `except` handler logs the exception tagged with the host. -/
def send_files_and_execute (ip : String) (env : HostEnv) : List Event :=
  let r := tryBody ip env
  if r.2 then r.1 ++ [Event.logError (excMsgLine ip env.excMsg)] else r.1

/-- Whether the `try` body of `send_files_and_execute ip env` raises an
exception (handled at the workflow boundary, line 188). -/
def raisesRun (ip : String) (env : HostEnv) : Bool := (tryBody ip env).2

/-- The host's TransferRecord: the `transferred_files` list built by the
transfer loop (every filename successfully copied before any exception). -/
def transferredOf (ip : String) (env : HostEnv) : List String :=
  (transferLoop ip env.entries).2.1

/-- Whether the run reaches the outcome branch at line 169 (session opened,
local dir present, all transfers succeeded, both `exec_command` calls
succeeded, streams read). -/
def reachesOutcome (ip : String) (env : HostEnv) : Bool :=
  env.connectOk && env.localDirExists && !(transferLoop ip env.entries).2.2
    && env.chmodOk && env.execOk

/-- The deployment phase of `main` (lines 238-246): every eligible host's
workflow is executed and its outcome collected; no host's exception
propagates (each is already caught inside `send_files_and_execute`).  The
thread pool imposes no ordering between hosts; the embedding fixes an
arbitrary sequential order, which is sound for per-host trace properties
because the workflows share no state. -/
def deployAll (hosts : List (String × HostEnv)) : List Event :=
  hosts.flatMap (fun h => send_files_and_execute h.1 h.2)

/-- Whether an event is an error-log append. -/
def isErrorLog : Event → Bool
  | .logError _ => true
  | _ => false

/-- Whether an event is an info-log append. -/
def isInfoLog : Event → Bool
  | .logInfo _ => true
  | _ => false

/-- Whether an event is a log append on either channel. -/
def isLog (e : Event) : Bool := isErrorLog e || isInfoLog e

/-- Whether an event is a file-transfer attempt. -/
def isPut : Event → Bool
  | .put _ _ => true
  | _ => false

/-- Whether an event is a remote command execution attempt
(`exec_command` for the chmod, the script run, or a cleanup `rm`). -/
def isRemoteExec : Event → Bool
  | .chmod _ => true
  | .execScript _ => true
  | .deleteCmd _ _ => true
  | _ => false

/-- The exclusion filter of `main` (lines 222-225):
`[ip for ip in ping_results if ip and ip != local_ip and ip != gateway_ip and ip not in EXCLUDE_IPS]`.
`ping_results` holds `ping_ip` results (`None` for dead hosts); `if ip`
keeps truthy values only (non-`None` and non-empty); `gateway_ip` may be
`None`, in which case `ip != gateway_ip` is always true. -/
def activeIps (pingResults : List (Option String)) (localIp : String)
    (gatewayIp : Option String) (excludeIps : List String) : List String :=
  pingResults.filterMap fun r =>
    match r with
    | none => none
    | some ip =>
      if ip ≠ "" ∧ ip ≠ localIp ∧ some ip ≠ gatewayIp ∧ ip ∉ excludeIps
      then some ip else none

/-- The live-host set: the non-`None` entries of `ping_results`. -/
def liveHosts (pingResults : List (Option String)) : List String :=
  pingResults.filterMap id

/-- Network address of the /24 block containing `ip` (addresses modelled as
32-bit numbers): `ipaddress.ip_interface(f"{local_ip}/24").network`. -/
def netBase (ip : Nat) : Nat := ip - ip % 256

/-- The candidate list of `main` (lines 214-215):
`[str(ip) for ip in network.hosts()]` for the /24 network of the local IP.
`hosts()` of a /24 yields the 254 addresses strictly between the network
address and the broadcast address, in order. -/
def ip_list (localIp : Nat) : List Nat :=
  (List.range 254).map (fun i => netBase localIp + 1 + i)

/-- A wall-clock time as decomposed by `time.strftime`. -/
structure Timestamp where
  year : Nat
  month : Nat
  day : Nat
  hour : Nat
  minute : Nat
  second : Nat
deriving DecidableEq, Repr

/-- Zero-pad to two digits (`%m`, `%d`, `%H`, `%M`, `%S`). -/
def pad2 (n : Nat) : String := if n < 10 then "0" ++ toString n else toString n

/-- Zero-pad to four digits (`%Y`). -/
def pad4 (n : Nat) : String :=
  if n < 10 then "000" ++ toString n
  else if n < 100 then "00" ++ toString n
  else if n < 1000 then "0" ++ toString n
  else toString n

/-- `time.strftime("[%Y-%m-%d %H:%M:%S]")` at time `t`. -/
def strftimeStamp (t : Timestamp) : String :=
  "[" ++ pad4 t.year ++ "-" ++ pad2 t.month ++ "-" ++ pad2 t.day ++ " "
    ++ pad2 t.hour ++ ":" ++ pad2 t.minute ++ ":" ++ pad2 t.second ++ "]"

/-- State touched by the logging utilities: whether `LOG_DIR` exists and the
lines of the two log files. -/
structure LogState where
  dirExists : Bool
  detailedLog : List String
  errorLog : List String
deriving DecidableEq, Repr

/-- `ensure_log_dir` (lines 65-67): `os.makedirs(LOG_DIR, exist_ok=True)` —
creates the directory, a no-op when it already exists. -/
def ensure_log_dir (st : LogState) : LogState := { st with dirExists := true }

/-- `log_message` (lines 69-75): ensure the log directory, then append one
timestamped line to the error log when `error` is true, else to the
detailed log. -/
def log_message (msg : String) (error : Bool) (t : Timestamp) (st : LogState) : LogState :=
  let st1 := ensure_log_dir st
  let line := strftimeStamp t ++ " " ++ msg
  if error then { st1 with errorLog := st1.errorLog ++ [line] }
  else { st1 with detailedLog := st1.detailedLog ++ [line] }

/-! ### Helper lemmas about the transfer and cleanup loops and a full run -/

theorem transferLoop_events_shape (ip : String) (es : List DirEntry) :
    ∀ ev ∈ (transferLoop ip es).1,
      (∃ f, ev = Event.put ip f) ∨ (∃ m, ev = Event.logInfo m) := by
  induction es with
  | nil => intro ev h; simp [transferLoop] at h
  | cons e rest ih =>
    intro ev h
    cases hf : e.isFile with
    | true =>
      cases hp : e.putOk with
      | true =>
        simp only [transferLoop, hf, hp, if_true, List.mem_cons] at h
        rcases h with h | h | h
        · exact Or.inl ⟨e.name, h⟩
        · exact Or.inr ⟨copiedMsg ip e.name, h⟩
        · exact ih ev h
      | false =>
        simp [transferLoop, hf, hp] at h
        exact Or.inl ⟨e.name, h⟩
    | false =>
      simp only [transferLoop, hf] at h
      simp at h
      exact ih ev h

theorem deleteCmd_not_mem_transferLoop (ip j f : String) (es : List DirEntry) :
    Event.deleteCmd j f ∉ (transferLoop ip es).1 := by
  intro h
  rcases transferLoop_events_shape ip es _ h with ⟨g, hg⟩ | ⟨m, hm⟩
  · simp at hg
  · simp at hm

theorem count_deleteCmd_transferLoop (ip j f : String) (es : List DirEntry) :
    ((transferLoop ip es).1).count (Event.deleteCmd j f) = 0 :=
  List.count_eq_zero_of_not_mem (deleteCmd_not_mem_transferLoop ip j f es)

theorem count_deleteCmd_cleanup (ip f : String) (fs : List String) :
    (cleanupEvents ip fs).count (Event.deleteCmd ip f) = fs.count f := by
  induction fs with
  | nil => simp [cleanupEvents]
  | cons g rest ih =>
    simp only [cleanupEvents, List.count_cons, ih]
    by_cases hfg : f = g <;> simp [hfg]

theorem mem_cleanup_iff (ip j f : String) (fs : List String) :
    Event.deleteCmd j f ∈ cleanupEvents ip fs ↔ (j = ip ∧ f ∈ fs) := by
  induction fs with
  | nil => simp [cleanupEvents]
  | cons g rest ih =>
    simp only [cleanupEvents, List.mem_cons, ih]
    constructor
    · rintro (h | h | ⟨hj, hf⟩)
      · rcases Event.deleteCmd.inj h with ⟨hj, hf⟩
        exact ⟨hj, Or.inl hf⟩
      · simp at h
      · exact ⟨hj, Or.inr hf⟩
    · rintro ⟨hj, hf | hf⟩
      · subst hj; subst hf; exact Or.inl rfl
      · exact Or.inr (Or.inr ⟨hj, hf⟩)

theorem transferred_sublist (ip : String) (es : List DirEntry) :
    List.Sublist (transferLoop ip es).2.1 (es.map DirEntry.name) := by
  induction es with
  | nil => simp [transferLoop]
  | cons e rest ih =>
    by_cases hf : e.isFile
    · by_cases hp : e.putOk
      · simpa [transferLoop, hf, hp] using ih.cons₂ e.name
      · simp [transferLoop, hf, hp]
    · simpa [transferLoop, hf] using ih.cons e.name

theorem count_deleteCmd_run (ip f : String) (env : HostEnv) :
    (send_files_and_execute ip env).count (Event.deleteCmd ip f) =
      if reachesOutcome ip env = true ∧ env.error = ""
      then (transferredOf ip env).count f else 0 := by
  cases hc : env.connectOk with
  | false => simp [send_files_and_execute, tryBody, reachesOutcome, hc]
  | true =>
    cases hd : env.localDirExists with
    | false => simp [send_files_and_execute, tryBody, reachesOutcome, hc, hd]
    | true =>
      cases ht : (transferLoop ip env.entries).2.2 with
      | true =>
        simp [send_files_and_execute, tryBody, reachesOutcome, hc, hd, ht,
          count_deleteCmd_transferLoop]
      | false =>
        cases hch : env.chmodOk with
        | false =>
          simp [send_files_and_execute, tryBody, reachesOutcome, hc, hd, ht, hch,
            count_deleteCmd_transferLoop]
        | true =>
          cases hex : env.execOk with
          | false =>
            simp [send_files_and_execute, tryBody, reachesOutcome, hc, hd, ht, hch, hex,
              count_deleteCmd_transferLoop]
          | true =>
            by_cases herr : env.error = "" <;> by_cases hout : env.output = "" <;>
              simp [send_files_and_execute, tryBody, reachesOutcome, transferredOf,
                hc, hd, ht, hch, hex, herr, hout, count_deleteCmd_transferLoop,
                count_deleteCmd_cleanup, List.count_append, List.count_cons]

theorem mem_deleteCmd_run (ip f : String) (env : HostEnv) :
    Event.deleteCmd ip f ∈ send_files_and_execute ip env ↔
      (reachesOutcome ip env = true ∧ env.error = "" ∧ f ∈ transferredOf ip env) := by
  cases hc : env.connectOk with
  | false => simp [send_files_and_execute, tryBody, reachesOutcome, hc]
  | true =>
    cases hd : env.localDirExists with
    | false => simp [send_files_and_execute, tryBody, reachesOutcome, hc, hd]
    | true =>
      cases ht : (transferLoop ip env.entries).2.2 with
      | true =>
        simp [send_files_and_execute, tryBody, reachesOutcome, hc, hd, ht,
          deleteCmd_not_mem_transferLoop]
      | false =>
        cases hch : env.chmodOk with
        | false =>
          simp [send_files_and_execute, tryBody, reachesOutcome, hc, hd, ht, hch,
            deleteCmd_not_mem_transferLoop]
        | true =>
          cases hex : env.execOk with
          | false =>
            simp [send_files_and_execute, tryBody, reachesOutcome, hc, hd, ht, hch, hex,
              deleteCmd_not_mem_transferLoop]
          | true =>
            by_cases herr : env.error = "" <;> by_cases hout : env.output = "" <;>
              simp [send_files_and_execute, tryBody, reachesOutcome, transferredOf,
                hc, hd, ht, hch, hex, herr, hout, deleteCmd_not_mem_transferLoop,
                mem_cleanup_iff]

/-! ### The claims -/

/-- C1: in every run of the per-host workflow, a deletion command for a file
is issued only if that filename is in the host's TransferRecord and the run
reached the outcome branch with an empty captured error stream; with an
empty error stream every TransferRecord filename is the target of exactly
one deletion command (filenames are distinct, as `os.listdir` yields each
directory entry once), and with a non-empty error stream no deletion
command is issued at all. -/
theorem spec_c1 (ip : String) (env : HostEnv)
    (hnd : (env.entries.map DirEntry.name).Nodup) :
    (∀ f, Event.deleteCmd ip f ∈ send_files_and_execute ip env →
      f ∈ transferredOf ip env ∧ reachesOutcome ip env = true ∧ env.error = "")
    ∧ (reachesOutcome ip env = true → env.error = "" →
      ∀ f ∈ transferredOf ip env,
        (send_files_and_execute ip env).count (Event.deleteCmd ip f) = 1)
    ∧ (env.error ≠ "" →
      ∀ f, Event.deleteCmd ip f ∉ send_files_and_execute ip env) := by
  refine ⟨?_, ?_, ?_⟩
  · intro f h
    rcases (mem_deleteCmd_run ip f env).1 h with ⟨h1, h2, h3⟩
    exact ⟨h3, h1, h2⟩
  · intro h1 h2 f hf
    rw [count_deleteCmd_run, if_pos ⟨h1, h2⟩]
    exact List.count_eq_one_of_mem ((transferred_sublist ip env.entries).nodup hnd) hf
  · intro herr f h
    exact herr ((mem_deleteCmd_run ip f env).1 h).2.1

/-- C1 witness: a run that transfers `a.sh` and `b.conf`, executes with an
empty error stream, and issues exactly one deletion command for `a.sh`. -/
theorem spec_c1_witness :
    (send_files_and_execute "10.0.0.9"
        (⟨true, true, [⟨"a.sh", true, true⟩, ⟨"b.conf", true, true⟩],
          true, true, "done", "", ""⟩ : HostEnv)).count
      (Event.deleteCmd "10.0.0.9" "a.sh") = 1 :=
  (spec_c1 "10.0.0.9"
      (⟨true, true, [⟨"a.sh", true, true⟩, ⟨"b.conf", true, true⟩],
        true, true, "done", "", ""⟩ : HostEnv) (by decide)).2.1
    (by decide) rfl "a.sh" (by decide)

/-- C2 counterexample: the claim says a missing local source directory
aborts the workflow for that host before any network action.  In the code,
`create_ssh_client` (line 139) — a network action — runs before the
`os.path.isdir` check (line 145): in the run below the directory is
missing, yet the trace contains the connect attempt. -/
theorem spec_c2_counterexample :
    (⟨true, false, [], true, true, "", "", ""⟩ : HostEnv).localDirExists = false
    ∧ Event.connect "192.168.1.50" ∈
        send_files_and_execute "192.168.1.50"
          (⟨true, false, [], true, true, "", "", ""⟩ : HostEnv) := by
  exact ⟨rfl, by simp [send_files_and_execute, tryBody]⟩

/-- C2 (amended): when the session opens and the local source directory is
missing, the workflow aborts after the session-open network action but
before any file transfer or remote execution: the trace is exactly
connect, one error-log entry, close — so exactly one error-log entry,
zero transfer attempts, zero remote-execution attempts, zero deletions. -/
theorem spec_c2_amended (ip : String) (env : HostEnv)
    (hc : env.connectOk = true) (hd : env.localDirExists = false) :
    send_files_and_execute ip env =
      [Event.connect ip, Event.logError (localDirMissingMsg ip), Event.closeSession ip]
    ∧ ((send_files_and_execute ip env).filter isErrorLog).length = 1
    ∧ (∀ f, Event.put ip f ∉ send_files_and_execute ip env)
    ∧ Event.chmod ip ∉ send_files_and_execute ip env
    ∧ Event.execScript ip ∉ send_files_and_execute ip env
    ∧ (∀ f, Event.deleteCmd ip f ∉ send_files_and_execute ip env) := by
  have h : send_files_and_execute ip env =
      [Event.connect ip, Event.logError (localDirMissingMsg ip), Event.closeSession ip] := by
    simp [send_files_and_execute, tryBody, hc, hd]
  refine ⟨h, ?_, ?_, ?_, ?_, ?_⟩ <;> simp [h, isErrorLog]

/-- C2 witness: a concrete missing-directory run with exactly one error-log
entry and no transfer attempt. -/
theorem spec_c2_witness :
    ((send_files_and_execute "10.0.0.7"
        (⟨true, false, [], true, true, "", "", ""⟩ : HostEnv)).filter isErrorLog).length = 1
    ∧ Event.put "10.0.0.7" "a.sh" ∉
        send_files_and_execute "10.0.0.7" (⟨true, false, [], true, true, "", "", ""⟩ : HostEnv) :=
  ⟨(spec_c2_amended "10.0.0.7" _ rfl rfl).2.1,
    (spec_c2_amended "10.0.0.7" _ rfl rfl).2.2.1 "a.sh"⟩

/-- C3 (code bug): the spec requires the session to be closed on every exit
path, including the exception path, but `send_files_and_execute` has no
`finally` clause: when `scp.put` raises after the session was opened, the
`except` handler logs the error and returns without calling
`ssh_client.close()`.  Concrete run: session opens, the first transfer
raises, and no close event appears in the trace. -/
theorem spec_c3_bug :
    (⟨true, true, [⟨"a.sh", true, false⟩], true, true, "", "", "scp failure"⟩
        : HostEnv).connectOk = true
    ∧ Event.connect "192.168.1.60" ∈
        send_files_and_execute "192.168.1.60"
          (⟨true, true, [⟨"a.sh", true, false⟩], true, true, "", "", "scp failure"⟩ : HostEnv)
    ∧ Event.closeSession "192.168.1.60" ∉
        send_files_and_execute "192.168.1.60"
          (⟨true, true, [⟨"a.sh", true, false⟩], true, true, "", "", "scp failure"⟩ : HostEnv) := by
  refine ⟨rfl, ?_, ?_⟩ <;> simp [send_files_and_execute, tryBody, transferLoop]

/-- C4: the deployment phase treats hosts independently: the combined trace
decomposes as the concatenation of each host's standalone workflow trace
(so failing hosts never prevent the others from running to completion);
a workflow whose `try` body raises ends with an error-log entry tagged
with that host's address and the exception text, and every workflow run
emits at least one log entry. -/
theorem spec_c4 (pre post : List (String × HostEnv)) (ip : String) (env : HostEnv) :
    deployAll (pre ++ (ip, env) :: post)
        = deployAll pre ++ send_files_and_execute ip env ++ deployAll post
    ∧ (raisesRun ip env = true →
        Event.logError (excMsgLine ip env.excMsg) ∈ send_files_and_execute ip env)
    ∧ (∃ e ∈ send_files_and_execute ip env, isLog e = true) := by
  refine ⟨?_, ?_, ?_⟩
  · simp [deployAll]
  · intro h
    unfold raisesRun at h
    simp [send_files_and_execute, h]
  · cases hr : raisesRun ip env with
    | true =>
      refine ⟨Event.logError (excMsgLine ip env.excMsg), ?_, rfl⟩
      unfold raisesRun at hr
      simp [send_files_and_execute, hr]
    | false =>
      unfold raisesRun at hr
      cases hc : env.connectOk with
      | false => simp [tryBody, hc] at hr
      | true =>
        cases hd : env.localDirExists with
        | false =>
          refine ⟨Event.logError (localDirMissingMsg ip), ?_, rfl⟩
          simp [send_files_and_execute, tryBody, hc, hd]
        | true =>
          cases ht : (transferLoop ip env.entries).2.2 with
          | true => simp [tryBody, hc, hd, ht] at hr
          | false =>
            cases hch : env.chmodOk with
            | false => simp [tryBody, hc, hd, ht, hch] at hr
            | true =>
              cases hex : env.execOk with
              | false => simp [tryBody, hc, hd, ht, hch, hex] at hr
              | true =>
                by_cases herr : env.error = ""
                · refine ⟨Event.logInfo (successMsg ip), ?_, rfl⟩
                  simp [send_files_and_execute, tryBody, hc, hd, ht, hch, hex, herr]
                · refine ⟨Event.logError (scriptErrorMsg ip env.error), ?_, rfl⟩
                  simp [send_files_and_execute, tryBody, hc, hd, ht, hch, hex, herr]

/-- C4 witness: a deployment over an unreachable host followed by a healthy
host decomposes into the two independent workflow traces. -/
theorem spec_c4_witness :
    deployAll ([("10.0.0.1", (⟨false, true, [], true, true, "", "", "timed out"⟩ : HostEnv))]
        ++ ("10.0.0.2", (⟨true, true, [⟨"a.sh", true, true⟩], true, true, "done", "", ""⟩
              : HostEnv)) :: [])
      = deployAll [("10.0.0.1", (⟨false, true, [], true, true, "", "", "timed out"⟩ : HostEnv))]
        ++ send_files_and_execute "10.0.0.2"
            (⟨true, true, [⟨"a.sh", true, true⟩], true, true, "done", "", ""⟩ : HostEnv)
        ++ deployAll [] :=
  (spec_c4 [("10.0.0.1", _)] [] "10.0.0.2" _).1

theorem activeIps_eq_filter (pingResults : List (Option String)) (localIp : String)
    (gatewayIp : Option String) (excludeIps : List String) :
    activeIps pingResults localIp gatewayIp excludeIps =
      (liveHosts pingResults).filter
        (fun ip => decide (ip ≠ "" ∧ ip ≠ localIp ∧ some ip ≠ gatewayIp ∧ ip ∉ excludeIps)) := by
  induction pingResults with
  | nil => rfl
  | cons r rest ih =>
    cases r with
    | none => simpa [activeIps, liveHosts] using ih
    | some ip =>
      by_cases h : ip ≠ "" ∧ ip ≠ localIp ∧ some ip ≠ gatewayIp ∧ ip ∉ excludeIps
      · simp only [activeIps, liveHosts, List.filterMap_cons, List.filter_cons,
          h, if_true, decide_eq_true_eq] at ih ⊢
        simp [h, ih]
      · simp only [activeIps, liveHosts, List.filterMap_cons, List.filter_cons,
          decide_eq_true_eq] at ih ⊢
        simp [h, ih]

/-- C5: the exclusion filter of `main` is a pure function of its inputs:
over any live-host set of real (non-empty) addresses, an address is kept
iff it is live and is none of the local address, the gateway address, or
an explicitly excluded address; and the output is a sublist of the live
hosts (no spurious additions, no reordering). -/
theorem spec_c5 (pingResults : List (Option String)) (localIp : String)
    (gatewayIp : Option String) (excludeIps : List String)
    (h : some "" ∉ pingResults) :
    (∀ ip, ip ∈ activeIps pingResults localIp gatewayIp excludeIps ↔
      (ip ∈ liveHosts pingResults ∧
        ¬(ip = localIp ∨ some ip = gatewayIp ∨ ip ∈ excludeIps)))
    ∧ List.Sublist (activeIps pingResults localIp gatewayIp excludeIps)
        (liveHosts pingResults) := by
  constructor
  · intro ip
    rw [activeIps_eq_filter, List.mem_filter]
    constructor
    · rintro ⟨hmem, hp⟩
      simp only [decide_eq_true_eq] at hp
      exact ⟨hmem, by tauto⟩
    · rintro ⟨hmem, hp⟩
      have hne : ip ≠ "" := by
        intro he
        subst he
        rcases (List.mem_filterMap (f := id)).1 hmem with ⟨a, ha, hid⟩
        cases a with
        | none => simp at hid
        | some b => simp at hid; subst hid; exact h ha
      refine ⟨hmem, ?_⟩
      simp only [decide_eq_true_eq]
      push_neg at hp
      exact ⟨hne, hp.1, hp.2.1, hp.2.2⟩
  · rw [activeIps_eq_filter]
    exact List.filter_sublist _

/-- C5 witness: a concrete ping-result list where the gateway and an
excluded address are live; the remaining live host is kept. -/
theorem spec_c5_witness :
    "192.168.1.2" ∈ activeIps
      [some "192.168.1.2", none, some "192.168.1.1", some "192.168.1.3"]
      "192.168.1.4" (some "192.168.1.1") ["192.168.1.3"] :=
  ((spec_c5 [some "192.168.1.2", none, some "192.168.1.1", some "192.168.1.3"]
      "192.168.1.4" (some "192.168.1.1") ["192.168.1.3"] (by decide)).1
    "192.168.1.2").mpr (by decide)

theorem mem_ip_list (localIp a : Nat) :
    a ∈ ip_list localIp ↔ (netBase localIp < a ∧ a < netBase localIp + 255) := by
  simp only [ip_list, List.mem_map, List.mem_range]
  constructor
  · rintro ⟨i, hi, rfl⟩
    omega
  · intro h
    exact ⟨a - netBase localIp - 1, by omega, by omega⟩

/-- C6: the candidate address sequence scanned by `main` (the `hosts()` of
the /24 network of the local address, addresses modelled as 32-bit
numbers) never contains the network address or the broadcast address, and
contains every usable host address strictly between them. -/
theorem spec_c6 (localIp : Nat) :
    netBase localIp ∉ ip_list localIp
    ∧ netBase localIp + 255 ∉ ip_list localIp
    ∧ ∀ a, netBase localIp < a → a < netBase localIp + 255 → a ∈ ip_list localIp := by
  refine ⟨?_, ?_, ?_⟩
  · intro h
    have := (mem_ip_list localIp _).1 h
    omega
  · intro h
    have := (mem_ip_list localIp _).1 h
    omega
  · intro a h1 h2
    exact (mem_ip_list localIp a).2 ⟨h1, h2⟩

/-- C6 witness: for local address 192.168.1.1 (3232235777) the network and
broadcast addresses are absent and a usable host address is present. -/
theorem spec_c6_witness :
    netBase 3232235777 ∉ ip_list 3232235777
    ∧ netBase 3232235777 + 255 ∉ ip_list 3232235777
    ∧ (3232235800 : Nat) ∈ ip_list 3232235777 :=
  ⟨(spec_c6 3232235777).1, (spec_c6 3232235777).2.1,
    (spec_c6 3232235777).2.2 3232235800 (by decide) (by decide)⟩

/-- C7: every call to `log_message` first creates the log directory
(idempotently) and then appends exactly one timestamped line — the
bracketed `YYYY-MM-DD HH:MM:SS` stamp, a space, the message — to the
error log when `error` is true and to the detailed log otherwise, leaving
the other log untouched. -/
theorem spec_c7 (msg : String) (error : Bool) (t : Timestamp) (st : LogState) :
    (log_message msg error t st).dirExists = true
    ∧ (error = true →
        (log_message msg error t st).errorLog
            = st.errorLog ++ [strftimeStamp t ++ " " ++ msg]
          ∧ (log_message msg error t st).detailedLog = st.detailedLog)
    ∧ (error = false →
        (log_message msg error t st).detailedLog
            = st.detailedLog ++ [strftimeStamp t ++ " " ++ msg]
          ∧ (log_message msg error t st).errorLog = st.errorLog)
    ∧ ensure_log_dir (ensure_log_dir st) = ensure_log_dir st
    ∧ strftimeStamp t
        = "[" ++ pad4 t.year ++ "-" ++ pad2 t.month ++ "-" ++ pad2 t.day ++ " "
            ++ pad2 t.hour ++ ":" ++ pad2 t.minute ++ ":" ++ pad2 t.second ++ "]" := by
  cases error <;> simp [log_message, ensure_log_dir, strftimeStamp]

/-- C7 witness: one error-severity call appends exactly its line to the
error log of an empty state. -/
theorem spec_c7_witness :
    (log_message "deploy failed" true ⟨2025, 3, 7, 9, 4, 30⟩
        (⟨false, [], []⟩ : LogState)).errorLog
      = [] ++ [strftimeStamp ⟨2025, 3, 7, 9, 4, 30⟩ ++ " " ++ "deploy failed"] :=
  ((spec_c7 "deploy failed" true ⟨2025, 3, 7, 9, 4, 30⟩ (⟨false, [], []⟩ : LogState)).2.1 rfl).1

/-- C8: in any run that reaches the outcome branch, a non-empty captured
stdout is logged to the detailed log whatever the captured error stream
is — the statement places no constraint on `env.error`, so it covers the
success (empty error stream) and failure (non-empty error stream)
classifications alike. -/
theorem spec_c8 (ip : String) (env : HostEnv)
    (h : reachesOutcome ip env = true) (ho : env.output ≠ "") :
    Event.logInfo (outputMsg ip env.output) ∈ send_files_and_execute ip env := by
  have h5 : env.connectOk = true ∧ env.localDirExists = true
      ∧ (transferLoop ip env.entries).2.2 = false ∧ env.chmodOk = true ∧ env.execOk = true := by
    unfold reachesOutcome at h
    simp only [Bool.and_eq_true, Bool.not_eq_true'] at h
    tauto
  obtain ⟨hc, hd, ht, hch, hex⟩ := h5
  by_cases herr : env.error = "" <;>
    simp [send_files_and_execute, tryBody, hc, hd, ht, hch, hex, herr, ho]

/-- C8 witness: the same non-empty stdout entry is logged both in a run
with an empty error stream and in a run with a non-empty error stream. -/
theorem spec_c8_witness :
    Event.logInfo (outputMsg "10.1.1.1" "done") ∈
      send_files_and_execute "10.1.1.1"
        (⟨true, true, [⟨"a.sh", true, true⟩], true, true, "done", "", ""⟩ : HostEnv)
    ∧ Event.logInfo (outputMsg "10.1.1.2" "done") ∈
        send_files_and_execute "10.1.1.2"
          (⟨true, true, [⟨"a.sh", true, true⟩], true, true, "done", "permission denied", ""⟩
            : HostEnv) :=
  ⟨spec_c8 "10.1.1.1" _ (by decide) (by decide),
    spec_c8 "10.1.1.2" _ (by decide) (by decide)⟩

theorem not_raises_of_reaches (ip : String) (env : HostEnv)
    (h : reachesOutcome ip env = true) : raisesRun ip env = false := by
  have h5 : env.connectOk = true ∧ env.localDirExists = true
      ∧ (transferLoop ip env.entries).2.2 = false ∧ env.chmodOk = true ∧ env.execOk = true := by
    unfold reachesOutcome at h
    simp only [Bool.and_eq_true, Bool.not_eq_true'] at h
    tauto
  obtain ⟨hc, hd, ht, hch, hex⟩ := h5
  unfold raisesRun
  simp [tryBody, hc, hd, ht, hch, hex]

/-- C9: if the `try` body of a host's workflow raises anywhere (a transfer
failure partway through the batch, or a failure at the chmod or execution
steps), the `except` handler is reached and no cleanup runs: zero
deletion commands are issued, so every file already recorded in the
TransferRecord stays on the remote host. -/
theorem spec_c9 (ip : String) (env : HostEnv) (h : raisesRun ip env = true) :
    ∀ f, Event.deleteCmd ip f ∉ send_files_and_execute ip env := by
  intro f hmem
  have hro := ((mem_deleteCmd_run ip f env).1 hmem).1
  have := not_raises_of_reaches ip env hro
  rw [h] at this
  simp at this

/-- C9 witness: `a.sh` is transferred, the transfer of `b.conf` raises,
and no deletion command for `a.sh` is issued. -/
theorem spec_c9_witness :
    Event.deleteCmd "10.2.2.2" "a.sh" ∉
      send_files_and_execute "10.2.2.2"
        (⟨true, true, [⟨"a.sh", true, true⟩, ⟨"b.conf", true, false⟩],
          true, true, "", "", "scp: transfer failed"⟩ : HostEnv) :=
  spec_c9 "10.2.2.2" _ (by decide) "a.sh"

/-- C10: whatever the local address, the scanned candidate list is always
the /24 block containing it: exactly 254 addresses, each with the same
/24 network address as the local address.  The mask width 24 is a literal
in the source (`f"{local_ip}/24"`, line 214) with no configuration
parameter. -/
theorem spec_c10 (localIp : Nat) :
    (ip_list localIp).length = 254
    ∧ ∀ a ∈ ip_list localIp, netBase a = netBase localIp := by
  constructor
  · simp [ip_list]
  · intro a ha
    rw [mem_ip_list] at ha
    unfold netBase at ha ⊢
    omega

/-- C10 witness: for local address 192.168.1.1 the scan has 254 candidates
and a sample candidate lies in the same /24 block. -/
theorem spec_c10_witness :
    (ip_list 3232235777).length = 254 ∧ netBase 3232235800 = netBase 3232235777 :=
  ⟨(spec_c10 3232235777).1, (spec_c10 3232235777).2 3232235800 (by decide)⟩
